import Mathlib

/-!
Verification of the Promptrun AI SDK synchronization engine.

This file gives a shallow embedding, in Lean, of the parts of the SDK that
the specification talks about: the prompt snapshot data model, change
detection and change-event construction, the error taxonomy and polling
backoff controller, the polling-session constructor validation, the typed
event emitter, and the SSE reconnect state machine.  JavaScript numbers are
modelled as rationals (`ℚ`), nullable/optional values as `Option`, thrown
exceptions as an inductive error type, and the mutable session objects as
explicit state records transformed by step functions.
-/

namespace Promptrun

/-! ## Snapshot data model (interface `PromptrunPrompt` in `types.ts`) -/

/-- The `model` descriptor of a prompt. -/
structure ModelInfo where
  name : String
  provider : String
  model : String
  icon : String
deriving DecidableEq, Repr

/-- The `user` descriptor of a prompt. -/
structure UserInfo where
  id : String
  clerkId : String
deriving DecidableEq, Repr

/-- The `project` descriptor of a prompt. -/
structure ProjectInfo where
  id : String
  name : String
deriving DecidableEq, Repr

/-- One observed snapshot of a prompt (interface `PromptrunPrompt`).
JavaScript `number` fields are modelled as `ℚ` (`temperature`) and `Int`
(`version`); `tag : string | null` and the optional `processedPrompt`
become `Option String`. -/
structure PromptrunPrompt where
  id : String
  createdAt : String
  updatedAt : String
  prompt : String
  processedPrompt : Option String
  version : Int
  versionMessage : String
  tag : Option String
  temperature : ℚ
  user : UserInfo
  project : ProjectInfo
  model : ModelInfo
deriving DecidableEq, Repr

/-! ## Change detection (`detectChanges` / `createChangeEvent`,
`PromptrunPollingPromptImpl` in `polling-prompt.ts`) -/

/-- `detectChanges(current, updated)`: true when any of the five compared
fields (`version`, `prompt`, `temperature`, `tag`, `updatedAt`) differs. -/
def detectChanges (current updated : PromptrunPrompt) : Bool :=
  current.version != updated.version ||
  current.prompt != updated.prompt ||
  current.temperature != updated.temperature ||
  current.tag != updated.tag ||
  current.updatedAt != updated.updatedAt

/-- A `\x7bfrom, to\x7d` pair recording one changed field. -/
structure FieldChange (α : Type) where
  fromValue : α
  toValue : α
deriving DecidableEq, Repr

/-- The `changes` record of a `PromptrunPromptChangeEvent`: one optional
entry per compared field, present only when that field differs. -/
structure PromptChanges where
  version : Option (FieldChange Int)
  content : Option (FieldChange String)
  temperature : Option (FieldChange ℚ)
  tag : Option (FieldChange (Option String))
  updatedAt : Option (FieldChange String)
deriving DecidableEq, Repr

/-- Does the changes record contain at least one entry? -/
def PromptChanges.hasAny (c : PromptChanges) : Bool :=
  c.version.isSome || c.content.isSome || c.temperature.isSome ||
  c.tag.isSome || c.updatedAt.isSome

/-- The payload of a `change` event (`PromptrunPromptChangeEvent`). -/
structure PromptrunPromptChangeEvent where
  prompt : PromptrunPrompt
  previousPrompt : PromptrunPrompt
  changes : PromptChanges
deriving DecidableEq, Repr

/-- `createChangeEvent(previous, current)`: builds the change event,
populating `changes` with exactly the differing fields. -/
def createChangeEvent (previous current : PromptrunPrompt) :
    PromptrunPromptChangeEvent :=
  { prompt := current
    previousPrompt := previous
    changes :=
      { version :=
          if previous.version != current.version then
            some ⟨previous.version, current.version⟩ else none
        content :=
          if previous.prompt != current.prompt then
            some ⟨previous.prompt, current.prompt⟩ else none
        temperature :=
          if previous.temperature != current.temperature then
            some ⟨previous.temperature, current.temperature⟩ else none
        tag :=
          if previous.tag != current.tag then
            some ⟨previous.tag, current.tag⟩ else none
        updatedAt :=
          if previous.updatedAt != current.updatedAt then
            some ⟨previous.updatedAt, current.updatedAt⟩ else none } }

/-! Sample snapshots used by witnesses. -/

/-- A sample snapshot. -/
def snapA : PromptrunPrompt :=
  { id := "prompt-1", createdAt := "2024-01-01", updatedAt := "2024-01-02"
    prompt := "A", processedPrompt := none, version := 1
    versionMessage := "v1", tag := some "prod", temperature := 7/10
    user := ⟨"u1", "c1"⟩, project := ⟨"p1", "proj"⟩
    model := ⟨"GPT-4o", "openai", "gpt-4o", "icon.png"⟩ }

/-- `snapA` with a different `id` and `model` only (the two fields the
change detector must ignore). -/
def snapA' : PromptrunPrompt :=
  { snapA with id := "prompt-2"
               model := ⟨"Claude", "anthropic", "claude-3", "icon2.png"⟩ }

/-- `snapA` with a different `version` and `prompt`. -/
def snapB : PromptrunPrompt :=
  { snapA with version := 2, prompt := "B" }

/-! ## Error taxonomy (`types.ts` error classes and `createPollingError`) -/

/-- The `type` field of a `PromptrunPollingError`. -/
inductive PollingErrorType where
  | rate_limit
  | authentication
  | network
  | api
  | configuration
  | unknown
deriving DecidableEq, Repr

/-- An exception thrown by the fetch path, as discriminated by the
`instanceof` chain in `createPollingError`.  In the source these are the
classes `PromptrunAPIError`, its subclass `PromptrunAuthenticationError`,
`PromptrunConnectionError`, and any other `Error`; the constructor of
`apiError` / `authenticationError` records the optional HTTP `status`. -/
inductive ThrownError where
  | apiError (message : String) (status : Option Nat)
  | authenticationError (message : String) (status : Option Nat)
  | connectionError (message : String)
  | otherError (message : String)
deriving DecidableEq, Repr

/-- `error.message` of a thrown error. -/
def ThrownError.message : ThrownError → String
  | .apiError m _ => m
  | .authenticationError m _ => m
  | .connectionError m => m
  | .otherError m => m

/-- `error.status` of a thrown error (`undefined` for classes without the
field, modelled as `none`). -/
def ThrownError.status : ThrownError → Option Nat
  | .apiError _ s => s
  | .authenticationError _ s => s
  | _ => none

/-- `error instanceof PromptrunAPIError`.  `PromptrunAuthenticationError`
extends `PromptrunAPIError`, so an authentication error satisfies this
check as well. -/
def isInstanceOfAPIError : ThrownError → Bool
  | .apiError _ _ => true
  | .authenticationError _ _ => true
  | _ => false

/-- `error instanceof PromptrunAuthenticationError`. -/
def isInstanceOfAuthenticationError : ThrownError → Bool
  | .authenticationError _ _ => true
  | _ => false

/-- `error instanceof PromptrunConnectionError`. -/
def isInstanceOfConnectionError : ThrownError → Bool
  | .connectionError _ => true
  | _ => false

/-- The `type` computed by `createPollingError`'s branch chain.  The source
assigns `type`, `message` and `statusCode` jointly in one `if`/`else if`
chain; here each is a separate function over the same branch conditions.
Note `error.status === 429` / `=== 401` is false when `status` is
`undefined` (`none`). -/
def pollingErrorType (error : ThrownError) : PollingErrorType :=
  if isInstanceOfAPIError error then
    if error.status == some 429 then .rate_limit
    else if error.status == some 401 then .authentication
    else .api
  else if isInstanceOfAuthenticationError error then .authentication
  else if isInstanceOfConnectionError error then .network
  else .unknown

/-- The `message` computed by `createPollingError`'s branch chain. -/
def pollingErrorMessage (projectId : String) (error : ThrownError) : String :=
  if isInstanceOfAPIError error then
    if error.status == some 429 then
      "Rate limited while polling project " ++ projectId ++
        ". Too many requests."
    else if error.status == some 401 then
      "Authentication failed while polling project " ++ projectId ++ "."
    else
      "API error while polling project " ++ projectId ++ ": " ++ error.message
  else if isInstanceOfAuthenticationError error then
    "Authentication failed while polling project " ++ projectId ++ "."
  else if isInstanceOfConnectionError error then
    "Network error while polling project " ++ projectId ++ ": " ++
      error.message
  else
    "Unknown error while polling project " ++ projectId ++ ": " ++
      error.message

/-- The `statusCode` computed by `createPollingError`'s branch chain
(only the API-error branches copy `error.status`). -/
def pollingErrorStatusCode (error : ThrownError) : Option Nat :=
  if isInstanceOfAPIError error then error.status
  else if isInstanceOfAuthenticationError error then error.status
  else none

/-- The `PromptrunPollingError` handed to the event emitter and the error
handler.  JavaScript `number` counters are modelled as `ℕ` / `ℚ`. -/
structure PromptrunPollingError where
  message : String
  type : PollingErrorType
  cause : Option ThrownError
  projectId : String
  consecutiveErrors : Nat
  backoffMultiplier : ℚ
  statusCode : Option Nat
deriving DecidableEq, Repr

/-- `createPollingError(error)` of `PromptrunPollingPromptImpl`, with the
instance fields it reads (`projectId`, `consecutiveErrors`,
`backoffMultiplier`) passed explicitly.  Every `ThrownError` models an
`Error` instance, so `cause` is always set. -/
def createPollingError (projectId : String) (error : ThrownError)
    (consecutiveErrors : Nat) (backoffMultiplier : ℚ) :
    PromptrunPollingError :=
  { message := pollingErrorMessage projectId error
    type := pollingErrorType error
    cause := some error
    projectId := projectId
    consecutiveErrors := consecutiveErrors
    backoffMultiplier := backoffMultiplier
    statusCode := pollingErrorStatusCode error }

/-- The error thrown by `fetchPrompt` for a non-2xx HTTP response with the
given status: 401 raises `PromptrunAuthenticationError` (note: constructed
without a `status` option), 429 and any other status raise
`PromptrunAPIError` carrying the status. -/
def fetchPromptError (status : Nat) : ThrownError :=
  if status == 401 then
    .authenticationError "Authentication failed for fetching prompt." none
  else if status == 429 then
    .apiError "Rate limited while fetching prompt. Too many requests."
      (some status)
  else
    .apiError ("Failed to fetch prompt with status: " ++ toString status)
      (some status)

/-! ## Poll session state (`PromptrunPollingPromptImpl`) -/

/-- The mutable fields of `PromptrunPollingPromptImpl` that the claims
concern.  Wall-clock `Date` fields (`lastSuccessfulFetch`,
`lastErrorTime`) are outside the shallow embedding; `pollingActive`
models `pollingInterval !== null`. -/
structure PollState where
  currentPrompt : PromptrunPrompt
  projectId : String
  pollIntervalMs : ℚ
  backoffMultiplier : ℚ
  consecutiveErrors : Nat
  lastError : Option PromptrunPollingError
  pollingActive : Bool
deriving DecidableEq, Repr

/-- `minPollIntervalMs`: the fixed 5-second floor. -/
def minPollIntervalMs : ℚ := 5000

/-- `maxBackoffMs`: the fixed 5-minute backoff ceiling. -/
def maxBackoffMs : ℚ := 300000

/-- The `PromptrunConfigurationError` thrown on construction-time
misconfiguration.  `providedValue : unknown` is modelled at the type the
constructor actually passes (the numeric interval); `expectedValue` is
optional in the source. -/
structure PromptrunConfigurationError where
  message : String
  parameter : String
  providedValue : ℚ
  expectedValue : Option ℚ
deriving DecidableEq, Repr

/-- The message of the minimum-interval configuration error. -/
def pollIntervalErrorMessage : String :=
  "Polling interval is too aggressive and may cause rate limiting. " ++
    "Minimum allowed interval is 5000ms (5 seconds). " ++
    "Use enforceMinimumInterval: false to bypass this check."

/-- The constructor of `PromptrunPollingPromptImpl`: validates the polling
interval (throwing a `PromptrunConfigurationError` when enforcement is on
and the interval is below the floor), otherwise initializes the state with
multiplier 1, zero consecutive errors, and starts polling. -/
def mkPollingPromptImpl (initialPrompt : PromptrunPrompt)
    (projectId : String) (pollIntervalMs : ℚ)
    (enforceMinimumInterval : Bool := true) :
    Except PromptrunConfigurationError PollState :=
  if enforceMinimumInterval ∧ pollIntervalMs < minPollIntervalMs then
    .error { message := pollIntervalErrorMessage
             parameter := "poll"
             providedValue := pollIntervalMs
             expectedValue := some minPollIntervalMs }
  else
    .ok { currentPrompt := initialPrompt
          projectId := projectId
          pollIntervalMs :=
            if enforceMinimumInterval then max pollIntervalMs minPollIntervalMs
            else pollIntervalMs
          backoffMultiplier := 1
          consecutiveErrors := 0
          lastError := none
          pollingActive := true }

/-- `getCurrent()`: returns a (defensive, field-by-field) copy of the
current prompt; under value semantics this is the current prompt itself. -/
def getCurrent (s : PollState) : PromptrunPrompt :=
  s.currentPrompt

/-- The success branch of the poll cycle in `scheduleNextPoll`: detect
changes against the current prompt, adopt the fetched prompt
unconditionally, emit a `change` event only when a change was detected,
then reset the backoff state.  Returns the new state together with the
list of emitted `change` events. -/
def pollSuccessStep (s : PollState) (updatedPrompt : PromptrunPrompt) :
    PollState × List PromptrunPromptChangeEvent :=
  let hasChanged := detectChanges s.currentPrompt updatedPrompt
  if hasChanged then
    let changeEvent := createChangeEvent s.currentPrompt updatedPrompt
    ({ s with currentPrompt := updatedPrompt
              backoffMultiplier := 1
              consecutiveErrors := 0
              lastError := none }, [changeEvent])
  else
    ({ s with currentPrompt := updatedPrompt
              backoffMultiplier := 1
              consecutiveErrors := 0
              lastError := none }, [])

/-- `handlePollingError(error)`: increments the consecutive-error count,
builds the classified `PromptrunPollingError` (reading the incremented
count and the pre-update multiplier), then applies the backoff policy:
`rate_limit` doubles the multiplier capped at 16; any other category
multiplies by 1.5 capped at 4 once three or more consecutive errors have
occurred.  Returns the new state and the emitted error. -/
def handlePollingErrorStep (s : PollState) (error : ThrownError) :
    PollState × PromptrunPollingError :=
  let consecutiveErrors := s.consecutiveErrors + 1
  let pollingError :=
    createPollingError s.projectId error consecutiveErrors
      s.backoffMultiplier
  let backoffMultiplier :=
    if pollingError.type = .rate_limit then
      min (s.backoffMultiplier * 2) 16
    else if consecutiveErrors ≥ 3 then
      min (s.backoffMultiplier * (3 / 2)) 4
    else
      s.backoffMultiplier
  ({ s with consecutiveErrors := consecutiveErrors
            backoffMultiplier := backoffMultiplier
            lastError := some pollingError }, pollingError)

/-- Fold a sequence of polling errors through `handlePollingErrorStep`. -/
def runErrors (s : PollState) (es : List ThrownError) : PollState :=
  es.foldl (fun t e => (handlePollingErrorStep t e).1) s

/-- A sample poll-session state used by witnesses. -/
def sampleState : PollState :=
  { currentPrompt := snapA
    projectId := "project-123"
    pollIntervalMs := 6000
    backoffMultiplier := 1
    consecutiveErrors := 0
    lastError := none
    pollingActive := true }

/-! ## Event emitter (`PollingEventEmitter` in `types.ts`)

Handlers are identified by `HandlerId`; the listener registry for one
event is the insertion-ordered contents of the JavaScript `Set`
(`List HandlerId`, duplicate-free by construction).  A handler's body is
described by the emitter operations it performs when invoked
(`HandlerSpec`), which is what the reentrancy claims are about.
`emit` uses `Set.prototype.forEach` on the live set: elements are visited
in insertion order; an element deleted before being visited is not
visited; no handler here adds elements, so visitation is modelled by
repeatedly invoking the first not-yet-visited element of the current
list. -/

/-- Identifier of a registered handler function. -/
abbrev HandlerId := Nat

/-- An emitter operation a handler performs on the same event's registry
while it runs: `off(event, handler)` or `off(event)`. -/
inductive EmitterAction where
  | offHandler (h : HandlerId)
  | offAllHandlers
deriving DecidableEq, Repr

/-- The body of a handler, as the emitter operations it performs. -/
abbrev HandlerSpec := List EmitterAction

/-- The listener registry for one event: the `Set` contents in insertion
order. -/
structure EmitterState where
  listeners : List HandlerId
deriving DecidableEq, Repr

/-- `on(event, handler)`: `Set.add` appends a handler not already
present (a `Set` ignores re-insertion of an existing element). -/
def onRegister (s : EmitterState) (h : HandlerId) : EmitterState :=
  if h ∈ s.listeners then s else { listeners := s.listeners ++ [h] }

/-- Apply one emitter operation: `off(event, handler)` is `Set.delete`,
`off(event)` is `Set.clear`. -/
def applyAction (ls : List HandlerId) : EmitterAction → List HandlerId
  | .offHandler h => ls.erase h
  | .offAllHandlers => []

/-- Run a handler body: apply its operations in order. -/
def applyActions (acts : HandlerSpec) (ls : List HandlerId) :
    List HandlerId :=
  acts.foldl applyAction ls

/-- The live-`Set` `forEach` loop of `emit`: invoke the first listener not
yet visited, run its body against the live registry, and continue.  Each
step visits a fresh element of the (removal-only) registry, so fuel equal
to the initial registry length suffices.  Returns the invocation log and
the final registry. -/
def emitNext (registry : HandlerId → HandlerSpec) :
    Nat → List HandlerId → List HandlerId → List HandlerId × List HandlerId
  | 0, listeners, _ => ([], listeners)
  | fuel + 1, listeners, visited =>
    match listeners.find? (fun h => decide (h ∉ visited)) with
    | none => ([], listeners)
    | some h =>
      let ls := applyActions (registry h) listeners
      let rest := emitNext registry fuel ls (visited ++ [h])
      (h :: rest.1, rest.2)

/-- `emit(event, payload)`: run the `forEach` loop over the live registry
starting from an empty visited set. -/
def emit (registry : HandlerId → HandlerSpec) (s : EmitterState) :
    List HandlerId × EmitterState :=
  let r := emitNext registry s.listeners.length s.listeners []
  (r.1, { listeners := r.2 })

/-- A sequence of `n` consecutive `emit` calls; returns the concatenated
invocation log and the final registry. -/
def emitMany (registry : HandlerId → HandlerSpec) (s : EmitterState) :
    Nat → List HandlerId × EmitterState
  | 0 => ([], s)
  | n + 1 =>
    let r := emit registry s
    let rest := emitMany registry r.2 n
    (r.1 ++ rest.1, rest.2)

/-! ## SSE session (`PromptrunSSEPromptImpl`) -/

/-- `EventSource.readyState`. -/
inductive ESReadyState where
  | connecting
  | opened
  | closed
deriving DecidableEq, Repr

/-- The connection-lifecycle fields of `PromptrunSSEPromptImpl`:
`eventSource` is `none` when the field is `null`; `pendingReconnects`
counts reconnect timers scheduled by `onerror` and not yet fired. -/
structure SSEState where
  eventSource : Option ESReadyState
  isConnected : Bool
  pendingReconnects : Nat
deriving DecidableEq, Repr

/-- The constructor body: `setupSSE()` creates a new `EventSource`
(initially `CONNECTING`). -/
def setupSSE (s : SSEState) : SSEState :=
  { s with eventSource := some .connecting }

/-- The state after construction (constructor calls `setupSSE`). -/
def initSSEState : SSEState :=
  setupSSE { eventSource := none, isConnected := false,
             pendingReconnects := 0 }

/-- The `onopen` callback: mark connected (the `EventSource` is open). -/
def sseOnOpen (s : SSEState) : SSEState :=
  { s with eventSource := some .opened, isConnected := true }

/-- The `onerror` callback (state part): mark disconnected and schedule a
reconnect attempt after a fixed 5-second delay. -/
def sseOnError (s : SSEState) : SSEState :=
  { s with isConnected := false,
           pendingReconnects := s.pendingReconnects + 1 }

/-- `stopPolling()`: close the active `EventSource` and null the field.
Note the pending reconnect timers are not cancelled and no stopped flag is
recorded. -/
def sseStopPolling (s : SSEState) : SSEState :=
  match s.eventSource with
  | some _ => { s with eventSource := none, isConnected := false }
  | none => s

/-- The reconnect guard evaluated when the 5-second timer fires:
`!this.eventSource || this.eventSource.readyState === EventSource.CLOSED`. -/
def sseReconnectGuard (s : SSEState) : Bool :=
  s.eventSource.isNone || s.eventSource == some .closed

/-- Firing of one pending reconnect timer: if the guard passes,
`setupSSE()` opens a fresh connection. -/
def sseFireReconnectTimer (s : SSEState) : SSEState :=
  match s.pendingReconnects with
  | 0 => s
  | n + 1 =>
    let t := { s with pendingReconnects := n }
    if sseReconnectGuard t then setupSSE t else t

/-- Registry in which handler 1 deregisters handler 2 (a later-registered
sibling) from inside its own invocation. -/
def removeSiblingRegistry : HandlerId → HandlerSpec
  | 1 => [.offHandler 2]
  | _ => []

/-- Registry in which every handler body performs no emitter operation. -/
def passiveRegistry : HandlerId → HandlerSpec := fun _ => []

/-- Registry modelling `once`: handler 1 is the `onceHandler` wrapper,
which (after running the wrapped handler) calls `off` on itself; handler 0
is a plain handler. -/
def onceRegistry : HandlerId → HandlerSpec
  | 1 => [.offHandler 1]
  | _ => []

/-! ## Theorems -/

/-- C6: the change detector reports a change iff the two snapshots differ
on at least one of the five fields version, prompt content, temperature,
tag, updatedAt; consequently snapshots agreeing on all five (in particular
pairs differing only in `id` or `model`) report no diff, and a snapshot
against itself (or a field-identical copy) reports no diff. -/
theorem detectChanges_iff_five_fields :
    (∀ a b : PromptrunPrompt,
      detectChanges a b = true ↔
        (a.version ≠ b.version ∨ a.prompt ≠ b.prompt ∨
         a.temperature ≠ b.temperature ∨ a.tag ≠ b.tag ∨
         a.updatedAt ≠ b.updatedAt)) ∧
    (∀ a b : PromptrunPrompt,
      a.version = b.version → a.prompt = b.prompt →
      a.temperature = b.temperature → a.tag = b.tag →
      a.updatedAt = b.updatedAt → detectChanges a b = false) ∧
    (∀ a : PromptrunPrompt, detectChanges a a = false) := by
  refine ⟨?_, ?_, ?_⟩
  · intro a b
    simp [detectChanges, or_assoc]
  · intro a b h1 h2 h3 h4 h5
    simp [detectChanges, h1, h2, h3, h4, h5]
  · intro a
    simp [detectChanges]

/-- Witness for C6 at concrete snapshots: `snapA'` differs from `snapA`
only in `id` and `model`, and a snapshot compared against itself also
reports no diff. -/
theorem detectChanges_iff_five_fields_witness :
    detectChanges snapA snapA' = false ∧ detectChanges snapA snapA = false :=
  ⟨detectChanges_iff_five_fields.2.1 snapA snapA' rfl rfl rfl rfl rfl,
   detectChanges_iff_five_fields.2.2 snapA⟩

/-- The detector result coincides with non-emptiness of the changes
record built by `createChangeEvent`. -/
theorem detectChanges_eq_hasAny (a b : PromptrunPrompt) :
    detectChanges a b = (createChangeEvent a b).changes.hasAny := by
  simp only [detectChanges, createChangeEvent, PromptChanges.hasAny,
    apply_ite Option.isSome, Option.isSome_some, Option.isSome_none,
    if_true_left, if_false_right]
  by_cases h1 : a.version != b.version <;>
    by_cases h2 : a.prompt != b.prompt <;>
      by_cases h3 : a.temperature != b.temperature <;>
        by_cases h4 : a.tag != b.tag <;>
          by_cases h5 : a.updatedAt != b.updatedAt <;>
            simp_all

/-- C10: `detectChanges(a, b)` is true exactly when the changes record
built by `createChangeEvent(a, b)` has at least one entry; consequently
every `change` event emitted by a successful poll cycle carries a
non-empty changes record. -/
theorem detectChanges_iff_nonempty_changes :
    (∀ a b : PromptrunPrompt,
      detectChanges a b = true ↔
        (createChangeEvent a b).changes.hasAny = true) ∧
    (∀ (s : PollState) (cand : PromptrunPrompt),
      ((pollSuccessStep s cand).2).all
        (fun e => e.changes.hasAny) = true) := by
  constructor
  · intro a b
    rw [detectChanges_eq_hasAny]
  · intro s cand
    by_cases h : detectChanges s.currentPrompt cand = true
    · have := detectChanges_eq_hasAny s.currentPrompt cand
      simp only [pollSuccessStep, h, if_true]
      simp [← this, h]
    · simp only [pollSuccessStep, Bool.not_eq_true] at h ⊢
      simp [h]

/-- C5: when the fetched candidate agrees with the current snapshot on all
five compared fields, the poll cycle emits no `change` event yet still
adopts the candidate: `getCurrent()` afterwards returns the newly fetched
object. -/
theorem identical_fields_adopt_without_change_event (s : PollState)
    (cand : PromptrunPrompt)
    (h1 : s.currentPrompt.version = cand.version)
    (h2 : s.currentPrompt.prompt = cand.prompt)
    (h3 : s.currentPrompt.temperature = cand.temperature)
    (h4 : s.currentPrompt.tag = cand.tag)
    (h5 : s.currentPrompt.updatedAt = cand.updatedAt) :
    (pollSuccessStep s cand).2 = [] ∧
      getCurrent (pollSuccessStep s cand).1 = cand := by
  have hd : detectChanges s.currentPrompt cand = false := by
    simp [detectChanges, h1, h2, h3, h4, h5]
  simp [pollSuccessStep, hd, getCurrent]

/-- Witness for C5: `snapA'` agrees with the current snapshot of
`sampleState` on the five compared fields (differing in `id` and `model`),
is adopted, and no event fires. -/
theorem identical_fields_adopt_without_change_event_witness :
    (pollSuccessStep sampleState snapA').2 = [] ∧
      getCurrent (pollSuccessStep sampleState snapA').1 = snapA' :=
  identical_fields_adopt_without_change_event sampleState snapA'
    rfl rfl rfl rfl rfl

/-- C8: constructing a poll session with interval 1000 ms under
minimum-interval enforcement fails synchronously with a
`PromptrunConfigurationError` whose `parameter` is "poll",
`providedValue` is 1000 and `expectedValue` is 5000. -/
theorem poll_interval_1000_configuration_error :
    mkPollingPromptImpl snapA "project-123" 1000 true =
      Except.error { message := pollIntervalErrorMessage
                     parameter := "poll"
                     providedValue := 1000
                     expectedValue := some 5000 } := by
  rfl

/-- C9: one successful poll cycle, run after any sequence of prior errors,
resets the backoff multiplier to 1 and the consecutive-error count to 0. -/
theorem success_resets_backoff_after_errors (s : PollState)
    (es : List ThrownError) (cand : PromptrunPrompt) :
    (pollSuccessStep (runErrors s es) cand).1.backoffMultiplier = 1 ∧
    (pollSuccessStep (runErrors s es) cand).1.consecutiveErrors = 0 := by
  by_cases h : detectChanges (runErrors s es).currentPrompt cand = true <;>
    simp [pollSuccessStep, h]

/-- C1 (code bug): a poll fetch failing with HTTP 401 throws
`PromptrunAuthenticationError` without a `status`; since that class
extends `PromptrunAPIError`, `createPollingError`'s first branch matches
and, with `status` undefined, classifies the emitted polling error as
type `api`, not `authentication`. -/
theorem fetch401_classified_as_api :
    fetchPromptError 401 =
      ThrownError.authenticationError
        "Authentication failed for fetching prompt." none ∧
    (handlePollingErrorStep sampleState (fetchPromptError 401)).2.type =
      PollingErrorType.api ∧
    PollingErrorType.api ≠ PollingErrorType.authentication := by
  refine ⟨rfl, rfl, ?_⟩
  decide

/-- C3 (code bug): after a connection error schedules the fixed 5-second
reconnect timer, calling `stopPolling()` nulls `eventSource`; when the
pending timer then fires, the guard
`!this.eventSource || readyState === CLOSED` passes and `setupSSE()`
reopens a connection — the stop does not suppress the pending reconnect. -/
theorem sse_pending_reconnect_reopens_after_stop :
    (sseStopPolling (sseOnError (sseOnOpen initSSEState))).eventSource
        = none ∧
    (sseFireReconnectTimer
        (sseStopPolling (sseOnError (sseOnOpen initSSEState)))).eventSource
      = some ESReadyState.connecting := by
  exact ⟨rfl, rfl⟩

/-- One rate-limited error doubles the multiplier, capped at 16. -/
theorem handlePollingErrorStep_rateLimit (s : PollState) (e : ThrownError)
    (he : pollingErrorType e = .rate_limit) :
    (handlePollingErrorStep s e).1.backoffMultiplier =
      min (s.backoffMultiplier * 2) 16 := by
  simp [handlePollingErrorStep, createPollingError, he]

/-- Doubling a capped power of two and recapping gives the next capped
power of two. -/
theorem min_pow_double (k : ℕ) :
    min (min ((2 : ℚ) ^ k) 16 * 2) 16 = min ((2 : ℚ) ^ (k + 1)) 16 := by
  rcases le_total ((2 : ℚ) ^ k) 16 with h | h
  · rw [min_eq_left h, pow_succ]
  · have h2 : (16 : ℚ) ≤ 2 ^ (k + 1) := by
      rw [pow_succ]
      nlinarith
    rw [min_eq_right h, min_eq_right (by norm_num : (16 : ℚ) ≤ 16 * 2),
      min_eq_right h2]

/-- Folding rate-limited errors preserves the capped power-of-two shape of
the multiplier. -/
theorem runErrors_rateLimit_aux (es : List ThrownError)
    (hr : ∀ e ∈ es, pollingErrorType e = .rate_limit) :
    ∀ (s : PollState) (k : ℕ),
      s.backoffMultiplier = min ((2 : ℚ) ^ k) 16 →
      (runErrors s es).backoffMultiplier =
        min ((2 : ℚ) ^ (k + es.length)) 16 := by
  induction es with
  | nil =>
    intro s k hk
    simpa [runErrors] using hk
  | cons e tl ih =>
    intro s k hk
    have he : pollingErrorType e = .rate_limit := hr e (by simp)
    have step : (handlePollingErrorStep s e).1.backoffMultiplier
        = min ((2 : ℚ) ^ (k + 1)) 16 := by
      rw [handlePollingErrorStep_rateLimit s e he, hk, min_pow_double]
    have hrun : runErrors s (e :: tl)
        = runErrors (handlePollingErrorStep s e).1 tl := rfl
    rw [hrun, ih (fun x hx => hr x (by simp [hx])) _ (k + 1) step]
    have : k + 1 + tl.length = k + (e :: tl).length := by
      simp [List.length_cons]
      omega
    rw [this]

/-- C4: starting from a fresh backoff state (multiplier 1, consecutive
error count 0), any sequence of N consecutive errors classified as
`rate_limit` leaves the multiplier at `min(2 ^ N, 16)`. -/
theorem rateLimit_backoff_multiplier_pow (s : PollState)
    (hm : s.backoffMultiplier = 1) (hc : s.consecutiveErrors = 0)
    (es : List ThrownError)
    (hr : ∀ e ∈ es, pollingErrorType e = .rate_limit) :
    (runErrors s es).backoffMultiplier = min ((2 : ℚ) ^ es.length) 16 := by
  have := runErrors_rateLimit_aux es hr s 0 (by simp [hm])
  simpa using this

/-- Witness for C4: five consecutive HTTP 429 errors from a fresh state
leave the multiplier at `min(2 ^ 5, 16) = 16`. -/
theorem rateLimit_backoff_multiplier_pow_witness :
    (runErrors sampleState
        (List.replicate 5 (fetchPromptError 429))).backoffMultiplier
      = min ((2 : ℚ) ^ (List.replicate 5 (fetchPromptError 429)).length)
          16 :=
  rateLimit_backoff_multiplier_pow sampleState rfl rfl _ (by decide)

/-- Emitter operations only ever remove listeners. -/
theorem applyAction_sublist (ls : List HandlerId) (a : EmitterAction) :
    (applyAction ls a).Sublist ls := by
  cases a with
  | offHandler h => exact List.erase_sublist h ls
  | offAllHandlers => exact List.nil_sublist ls

/-- Running a handler body only ever removes listeners. -/
theorem applyActions_sublist (acts : HandlerSpec) (ls : List HandlerId) :
    (applyActions acts ls).Sublist ls := by
  induction acts generalizing ls with
  | nil => simp [applyActions]
  | cons a tl ih =>
    have h1 : applyActions (a :: tl) ls = applyActions tl (applyAction ls a) :=
      rfl
    rw [h1]
    exact (ih (applyAction ls a)).trans (applyAction_sublist ls a)

/-- A successful `find?` splits the list at the found element, with every
earlier element failing the predicate. -/
theorem find?_eq_some_split {p : HandlerId → Bool} {l : List HandlerId}
    {a : HandlerId} (h : l.find? p = some a) :
    ∃ pre post, l = pre ++ a :: post ∧ p a = true ∧
      ∀ x ∈ pre, p x = false := by
  induction l with
  | nil => simp at h
  | cons b tl ih =>
    by_cases hb : p b = true
    · rw [List.find?_cons_of_pos tl hb] at h
      obtain rfl : b = a := by simpa using h
      exact ⟨[], tl, rfl, hb, by simp⟩
    · rw [List.find?_cons_of_neg tl (by simpa using hb)] at h
      obtain ⟨pre, post, hsplit, hpa, hpre⟩ := ih h
      refine ⟨b :: pre, post, by simp [hsplit], hpa, ?_⟩
      intro x hx
      rcases List.mem_cons.mp hx with rfl | hx'
      · simpa using hb
      · exact hpre x hx'

/-- `find?` skips a prefix on which the predicate fails everywhere. -/
theorem find?_append_of_false {p : HandlerId → Bool}
    (pre l : List HandlerId) (h : ∀ x ∈ pre, p x = false) :
    (pre ++ l).find? p = l.find? p := by
  induction pre with
  | nil => rfl
  | cons b tl ih =>
    have hb : ¬ p b = true := by simp [h b (by simp)]
    rw [List.cons_append, List.find?_cons_of_neg _ hb]
    exact ih fun x hx => h x (by simp [hx])

/-- Filtering with a stronger predicate yields a sublist of filtering with
a weaker one. -/
theorem filter_imp_sublist {p q : HandlerId → Bool} (l : List HandlerId)
    (h : ∀ a, p a = true → q a = true) :
    (l.filter p).Sublist (l.filter q) := by
  induction l with
  | nil => simp
  | cons b tl ih =>
    by_cases hb : p b = true
    · rw [List.filter_cons_of_pos hb, List.filter_cons_of_pos (h b hb)]
      exact ih.cons₂ b
    · rw [List.filter_cons_of_neg (by simpa using hb)]
      by_cases hq : q b = true
      · rw [List.filter_cons_of_pos hq]
        exact ih.cons b
      · rw [List.filter_cons_of_neg (by simpa using hq)]
        exact ih

/-- The invocation log of the `forEach` loop is a subsequence of the
not-yet-visited listeners in their current order. -/
theorem emitNext_log_sublist (registry : HandlerId → HandlerSpec) :
    ∀ (fuel : Nat) (ls visited : List HandlerId),
      (emitNext registry fuel ls visited).1.Sublist
        (ls.filter (fun h => decide (h ∉ visited))) := by
  intro fuel
  induction fuel with
  | zero =>
    intro ls v
    simp [emitNext]
  | succ f ih =>
    intro ls v
    cases hf : ls.find? (fun h => decide (h ∉ v)) with
    | none =>
      simp only [emitNext, hf]
      exact List.nil_sublist _
    | some h =>
      obtain ⟨pre, post, rfl, hph, hpre⟩ := find?_eq_some_split hf
      have hhv : h ∉ v := by simpa using hph
      have hpre0 : pre.filter (fun x => decide (x ∉ v)) = [] := by
        rw [List.filter_eq_nil_iff]
        intro x hx
        simp [hpre x hx]
      have hfilter : (pre ++ h :: post).filter (fun x => decide (x ∉ v))
          = h :: post.filter (fun x => decide (x ∉ v)) := by
        rw [List.filter_append, hpre0, List.nil_append, List.filter_cons]
        simp [hph]
      rw [hfilter]
      simp only [emitNext, hf]
      refine List.Sublist.cons₂ h ?_
      have step1 := ih (applyActions (registry h) (pre ++ h :: post))
        (v ++ [h])
      have step2 : ((applyActions (registry h) (pre ++ h :: post)).filter
            (fun x => decide (x ∉ v ++ [h]))).Sublist
          ((pre ++ h :: post).filter (fun x => decide (x ∉ v ++ [h]))) :=
        List.Sublist.filter _
          (applyActions_sublist (registry h) (pre ++ h :: post))
      have step3 : (pre ++ h :: post).filter
            (fun x => decide (x ∉ v ++ [h]))
          = post.filter (fun x => decide (x ∉ v ++ [h])) := by
        have hpre1 : pre.filter (fun x => decide (x ∉ v ++ [h])) = [] := by
          rw [List.filter_eq_nil_iff]
          intro x hx
          have : x ∈ v := by simpa using hpre x hx
          simp [this]
        rw [List.filter_append, hpre1, List.nil_append, List.filter_cons]
        simp
      have step4 : (post.filter (fun x => decide (x ∉ v ++ [h]))).Sublist
          (post.filter (fun x => decide (x ∉ v))) := by
        refine filter_imp_sublist post ?_
        intro a ha
        simp only [decide_eq_true_eq, List.mem_append] at ha ⊢
        exact fun hav => ha (Or.inl hav)
      have t1 := step1.trans step2
      rw [step3] at t1
      exact t1.trans step4

/-- When every handler only removes itself (or nothing), the `forEach`
loop invokes exactly the registered listeners, in order: visited listeners
form a prefix `pre`, all already in the visited set, and the remaining
suffix is invoked in full. -/
theorem emitNext_selfRemoval (registry : HandlerId → HandlerSpec) :
    ∀ (suffix : List HandlerId) (fuel : Nat) (pre visited : List HandlerId),
      suffix.length ≤ fuel →
      suffix.Nodup →
      (∀ h ∈ suffix, h ∉ visited) →
      (∀ h ∈ pre, h ∈ visited) →
      (∀ h ∈ suffix, registry h = [] ∨
        registry h = [EmitterAction.offHandler h]) →
      (emitNext registry fuel (pre ++ suffix) visited).1 = suffix := by
  intro suffix
  induction suffix with
  | nil =>
    intro fuel pre v _ _ _ hpre _
    cases fuel with
    | zero => simp [emitNext]
    | succ f =>
      have hnone : (pre ++ ([] : List HandlerId)).find?
          (fun h => decide (h ∉ v)) = none := by
        rw [List.find?_eq_none]
        intro x hx
        have : x ∈ v := hpre x (by simpa using hx)
        simp [this]
      simp only [emitNext, hnone]
  | cons h rest ih =>
    intro fuel pre v hlen hnd hsv hpre hreg
    cases fuel with
    | zero => simp at hlen
    | succ f =>
      have hhv : h ∉ v := hsv h (by simp)
      have hfind : (pre ++ h :: rest).find? (fun x => decide (x ∉ v))
          = some h := by
        rw [find?_append_of_false pre (h :: rest)
          (fun x hx => by simp [hpre x hx])]
        rw [List.find?_cons_of_pos rest (by simpa using hhv)]
      have hnd' : rest.Nodup := (List.nodup_cons.mp hnd).2
      have hhrest : h ∉ rest := (List.nodup_cons.mp hnd).1
      have hsv' : ∀ x ∈ rest, x ∉ v ++ [h] := by
        intro x hx
        simp only [List.mem_append, List.mem_singleton]
        rintro (hxv | rfl)
        · exact hsv x (by simp [hx]) hxv
        · exact hhrest hx
      have hreg' : ∀ x ∈ rest, registry x = [] ∨
          registry x = [EmitterAction.offHandler x] :=
        fun x hx => hreg x (by simp [hx])
      have hlen' : rest.length ≤ f := by
        simpa using hlen
      rcases hreg h (by simp) with hr | hr
      · have hls : applyActions (registry h) (pre ++ h :: rest)
            = (pre ++ [h]) ++ rest := by
          rw [hr]
          simp [applyActions]
        have hpre' : ∀ x ∈ pre ++ [h], x ∈ v ++ [h] := by
          intro x hx
          rcases List.mem_append.mp hx with hx' | hx'
          · exact List.mem_append.mpr (Or.inl (hpre x hx'))
          · exact List.mem_append.mpr (Or.inr hx')
        simp only [emitNext, hfind, hls]
        rw [ih f (pre ++ [h]) (v ++ [h]) hlen' hnd' hsv' hpre' hreg']
      · have hnotpre : h ∉ pre := fun hm => hhv (hpre h hm)
        have hls : applyActions (registry h) (pre ++ h :: rest)
            = pre ++ rest := by
          rw [hr]
          show (pre ++ h :: rest).erase h = pre ++ rest
          rw [List.erase_append_right _ hnotpre, List.erase_cons_head]
        have hpre' : ∀ x ∈ pre, x ∈ v ++ [h] :=
          fun x hx => List.mem_append.mpr (Or.inl (hpre x hx))
        simp only [emitNext, hfind, hls]
        rw [ih f pre (v ++ [h]) hlen' hnd' hsv' hpre' hreg']

/-- C2 (amended): during `emit`, handlers run at most once each, in
registration order (the invocation log is a subsequence of the listener
list taken at emit start), and a handler that deregisters only itself
does not disturb its siblings: if every handler removes at most itself,
all listeners registered at emit start are invoked exactly once, in
order.  (As C2 originally stated it is false: a handler that deregisters
a later-registered sibling that has not yet run causes that sibling to be
skipped, because `emit` iterates the live `Set`, not a stable copy — see
the counterexample.) -/
theorem emit_registration_order_and_self_removal
    (registry : HandlerId → HandlerSpec) (L : List HandlerId)
    (hnd : L.Nodup) :
    (emit registry ⟨L⟩).1.Sublist L ∧
    ((∀ h ∈ L, registry h = [] ∨
        registry h = [EmitterAction.offHandler h]) →
      (emit registry ⟨L⟩).1 = L) := by
  constructor
  · have h1 := emitNext_log_sublist registry L.length L []
    have h2 : L.filter (fun h => decide (h ∉ ([] : List HandlerId))) = L := by
      simp
    rw [h2] at h1
    exact h1
  · intro hreg
    have := emitNext_selfRemoval registry L L.length [] [] le_rfl hnd
      (by simp) (by simp) hreg
    simpa [emit] using this

/-- C2 counterexample: with handlers `[1, 2]` where handler 1's body
deregisters handler 2, the emit invokes only handler 1 — handler 2 was
registered when the emit started yet is not invoked exactly once. -/
theorem emit_skips_sibling_removed_mid_emit :
    (emit removeSiblingRegistry ⟨[1, 2]⟩).1 = [1] ∧
    ¬ (emit removeSiblingRegistry ⟨[1, 2]⟩).1.count 2 = 1 := by
  constructor
  · rfl
  · decide

/-- Witness for C2 (amended) at a concrete registry with passive
handlers: both registered handlers are invoked, in registration order. -/
theorem emit_registration_order_witness :
    (emit passiveRegistry ⟨[5, 7]⟩).1.Sublist [5, 7] ∧
    (emit passiveRegistry ⟨[5, 7]⟩).1 = [5, 7] :=
  ⟨(emit_registration_order_and_self_removal passiveRegistry [5, 7]
      (by decide)).1,
   (emit_registration_order_and_self_removal passiveRegistry [5, 7]
      (by decide)).2 (fun h _ => Or.inl rfl)⟩

/-- A handler body that neither `off`s listener `w` nor clears the set
keeps `w` registered. -/
theorem mem_applyActions_of_not_removed {w : HandlerId}
    (acts : HandlerSpec) (ls : List HandlerId) (hw : w ∈ ls)
    (h1 : EmitterAction.offHandler w ∉ acts)
    (h2 : EmitterAction.offAllHandlers ∉ acts) :
    w ∈ applyActions acts ls := by
  induction acts generalizing ls with
  | nil => simpa [applyActions] using hw
  | cons a tl ih =>
    have hstep : applyActions (a :: tl) ls
        = applyActions tl (applyAction ls a) := rfl
    rw [hstep]
    cases a with
    | offAllHandlers => exact absurd (by simp) h2
    | offHandler x =>
      have hxw : w ≠ x := by
        intro e
        exact h1 (by simp [e])
      refine ih (ls.erase x) ((List.mem_erase_of_ne hxw).mpr hw) ?_ ?_
      · intro hm
        exact h1 (List.mem_cons_of_mem _ hm)
      · intro hm
        exact h2 (List.mem_cons_of_mem _ hm)

/-- A listener absent from the registry when the loop starts is never
invoked and never reappears. -/
theorem emitNext_absent (registry : HandlerId → HandlerSpec)
    {w : HandlerId} :
    ∀ (fuel : Nat) (ls v : List HandlerId), w ∉ ls →
      w ∉ (emitNext registry fuel ls v).1 ∧
        w ∉ (emitNext registry fuel ls v).2 := by
  intro fuel
  induction fuel with
  | zero =>
    intro ls v hw
    simpa [emitNext] using hw
  | succ f ih =>
    intro ls v hw
    cases hf : ls.find? (fun h => decide (h ∉ v)) with
    | none =>
      simp only [emitNext, hf]
      exact ⟨by simp, hw⟩
    | some h =>
      have hhw : h ≠ w := fun e => hw (e ▸ List.mem_of_find?_eq_some hf)
      have hw' : w ∉ applyActions (registry h) ls :=
        fun hm => hw ((applyActions_sublist (registry h) ls).subset hm)
      have := ih (applyActions (registry h) ls) (v ++ [h]) hw'
      simp only [emitNext, hf]
      exact ⟨by simp [this.1, Ne.symm hhw], this.2⟩

/-- Visiting a fresh listener strictly shrinks the unvisited part of the
registry. -/
theorem filter_visited_length_lt {v : List HandlerId} {h : HandlerId} :
    ∀ {ls : List HandlerId}, ls.Nodup → h ∈ ls → h ∉ v →
      (ls.filter (fun x => decide (x ∉ v ++ [h]))).length <
        (ls.filter (fun x => decide (x ∉ v))).length := by
  intro ls
  induction ls with
  | nil => intro _ hmem; cases hmem
  | cons a tl ih =>
    intro hnd hmem hv
    have hand := List.nodup_cons.mp hnd
    rcases List.mem_cons.mp hmem with rfl | hmem'
    · have e1 : (h :: tl).filter (fun x => decide (x ∉ v ++ [h]))
          = tl.filter (fun x => decide (x ∉ v ++ [h])) := by
        rw [List.filter_cons]
        simp
      have e2 : (h :: tl).filter (fun x => decide (x ∉ v))
          = h :: tl.filter (fun x => decide (x ∉ v)) := by
        rw [List.filter_cons]
        simp [hv]
      rw [e1, e2]
      have hle : (tl.filter (fun x => decide (x ∉ v ++ [h]))).length ≤
          (tl.filter (fun x => decide (x ∉ v))).length := by
        refine List.Sublist.length_le (filter_imp_sublist tl ?_)
        intro x hx
        simp only [decide_eq_true_eq, List.mem_append] at hx ⊢
        exact fun hxv => hx (Or.inl hxv)
      simp only [List.length_cons]
      omega
    · have hah : a ≠ h := fun e => hand.1 (e ▸ hmem')
      by_cases hav : a ∈ v
      · have e1 : (a :: tl).filter (fun x => decide (x ∉ v ++ [h]))
            = tl.filter (fun x => decide (x ∉ v ++ [h])) := by
          rw [List.filter_cons]
          simp [hav]
        have e2 : (a :: tl).filter (fun x => decide (x ∉ v))
            = tl.filter (fun x => decide (x ∉ v)) := by
          rw [List.filter_cons]
          simp [hav]
        rw [e1, e2]
        exact ih hand.2 hmem' hv
      · have e1 : (a :: tl).filter (fun x => decide (x ∉ v ++ [h]))
            = a :: tl.filter (fun x => decide (x ∉ v ++ [h])) := by
          rw [List.filter_cons]
          simp [hav, hah]
        have e2 : (a :: tl).filter (fun x => decide (x ∉ v))
            = a :: tl.filter (fun x => decide (x ∉ v)) := by
          rw [List.filter_cons]
          simp [hav]
        rw [e1, e2]
        simpa [List.length_cons, Nat.succ_lt_succ_iff] using
          ih hand.2 hmem' hv

/-- In a duplicate-free registry where listener `w`'s body ends by
`off`ing itself and every other listener's body is empty, one emit
invokes `w` exactly once and leaves `w` deregistered. -/
theorem emitNext_once (registry : HandlerId → HandlerSpec)
    (w : HandlerId) (A : HandlerSpec)
    (hw : registry w = A ++ [EmitterAction.offHandler w])
    (hothers : ∀ h, h ≠ w → registry h = []) :
    ∀ (fuel : Nat) (ls v : List HandlerId),
      (ls.filter (fun x => decide (x ∉ v))).length ≤ fuel →
      ls.Nodup → w ∈ ls → w ∉ v →
      (emitNext registry fuel ls v).1.count w = 1 ∧
        w ∉ (emitNext registry fuel ls v).2 := by
  intro fuel
  induction fuel with
  | zero =>
    intro ls v hlen hnd hwls hwv
    exfalso
    have hmem : w ∈ ls.filter (fun x => decide (x ∉ v)) :=
      List.mem_filter.mpr ⟨hwls, by simpa using hwv⟩
    have := List.length_pos.mpr (List.ne_nil_of_mem hmem)
    omega
  | succ f ih =>
    intro ls v hlen hnd hwls hwv
    cases hf : ls.find? (fun x => decide (x ∉ v)) with
    | none =>
      exfalso
      rw [List.find?_eq_none] at hf
      exact hf w hwls (by simpa using hwv)
    | some h =>
      by_cases hhw : h = w
      · subst hhw
        have hsplit : applyActions (registry h) ls
            = (applyActions A ls).erase h := by
          rw [hw, applyActions, List.foldl_append]
          rfl
        have hnd' : (applyActions A ls).Nodup :=
          (applyActions_sublist A ls).nodup hnd
        have hls' : h ∉ applyActions (registry h) ls := by
          rw [hsplit]
          exact hnd'.not_mem_erase
        have habs := emitNext_absent registry f
          (applyActions (registry h) ls) (v ++ [h]) hls'
        simp only [emitNext, hf]
        refine ⟨?_, habs.2⟩
        simp [List.count_cons, List.count_eq_zero_of_not_mem habs.1]
      · have hreg : registry h = [] := hothers h hhw
        have hls : applyActions (registry h) ls = ls := by
          rw [hreg]
          rfl
        have hhls : h ∈ ls := List.mem_of_find?_eq_some hf
        have hhv : h ∉ v := by
          have := List.find?_some hf
          simpa using this
        have hmeas : (ls.filter (fun x => decide (x ∉ v ++ [h]))).length
            ≤ f := by
          have := filter_visited_length_lt hnd hhls hhv
          omega
        have hwv' : w ∉ v ++ [h] := by
          simp only [List.mem_append, List.mem_singleton]
          rintro (hv' | rfl)
          · exact hwv hv'
          · exact hhw rfl
        have := ih ls (v ++ [h]) hmeas hnd hwls hwv'
        simp only [emitNext, hf, hls]
        refine ⟨?_, this.2⟩
        simp [List.count_cons, Ne.symm hhw, this.1]

/-- A deregistered listener never fires across any further sequence of
emits. -/
theorem emitMany_count_zero (registry : HandlerId → HandlerSpec)
    {w : HandlerId} :
    ∀ (n : Nat) (s : EmitterState), w ∉ s.listeners →
      (emitMany registry s n).1.count w = 0 := by
  intro n
  induction n with
  | zero =>
    intro s hw
    simp [emitMany]
  | succ m ih =>
    intro s hw
    have habs := emitNext_absent registry s.listeners.length s.listeners
      [] hw
    have h1 : (emit registry s).1.count w = 0 :=
      List.count_eq_zero_of_not_mem habs.1
    have h2 : w ∉ (emit registry s).2.listeners := habs.2
    simp only [emitMany, List.count_append]
    rw [h1, ih _ h2]

/-- C7: a handler registered via `once` fires exactly once across any
sequence of two or more emits of its event: its wrapper runs the wrapped
body (here, any removal actions `A`, which may itself `off` the wrapper)
and then `off`s itself, so later emits never invoke it again. -/
theorem once_handler_fires_exactly_once
    (registry : HandlerId → HandlerSpec) (L : List HandlerId)
    (w : HandlerId) (A : HandlerSpec) (n : ℕ)
    (hnd : L.Nodup) (hw : w ∈ L)
    (hreg : registry w = A ++ [EmitterAction.offHandler w])
    (hothers : ∀ h, h ≠ w → registry h = []) :
    ((emitMany registry ⟨L⟩ (n + 2)).1).count w = 1 := by
  have hfirst := emitNext_once registry w A hreg hothers L.length L []
    (by simp) hnd hw (by simp)
  have hrest : (emitMany registry (emit registry ⟨L⟩).2 (n + 1)).1.count w
      = 0 :=
    emitMany_count_zero registry (n + 1) (emit registry ⟨L⟩).2 hfirst.2
  have hsplit : (emitMany registry ⟨L⟩ (n + 2)).1
      = (emit registry ⟨L⟩).1 ++
          (emitMany registry (emit registry ⟨L⟩).2 (n + 1)).1 := rfl
  rw [hsplit, List.count_append, hrest, Nat.add_zero]
  exact hfirst.1

/-- Witness for C7: in registry `onceRegistry` (handler 1 is a `once`
wrapper, handler 0 plain), two consecutive emits over listeners `[0, 1]`
invoke handler 1 exactly once. -/
theorem once_handler_fires_exactly_once_witness :
    ((emitMany onceRegistry ⟨[0, 1]⟩ 2).1).count 1 = 1 :=
  once_handler_fires_exactly_once onceRegistry [0, 1] 1 [] 0 (by decide)
    (by decide) rfl
    (by
      intro h hh
      match h with
      | 0 => rfl
      | 1 => exact absurd rfl hh
      | (k + 2) => rfl)

end Promptrun
